import Mathlib

/-!
Verification of the Hall-Yarborough Z-factor calculator (`src/app.py`).

The numeric core of the script (lines 117-200) is embedded shallowly:

* Exact decimal/float arithmetic is idealised as exact arithmetic: the
  pressure-sweep and polynomial correlations are embedded over `ℚ`
  (fully computable), and the formulas involving `exp` and real powers
  over `ℝ`.
* `scipy.optimize.fsolve` is an external library routine, not code of
  this repository; it is modelled as an uninterpreted parameter
  `fsolve : (ℝ → ℝ) → ℝ → ℝ` taking the residual function and the
  initial guess and returning the root it found, exactly as `Zfac`
  consumes it (the code takes element `[0]` of the returned array,
  i.e. a single scalar).
* Python `int(..)` truncation toward zero is `pyInt`; Python
  `range(a, b, s)` with positive step is `pythonRange`.

Definitions in namespace `App` are translated line by line from
`src/app.py` and keep the source's names.  Definitions in namespace
`Spec` are written from the specification text alone and exist to be
compared with the `App` ones.
-/

namespace App

/-- Python's `int(q)` for a finite value: truncation toward zero
(`app.py` line 173 applies it to `P + 1000`). -/
def pyInt (q : ℚ) : ℤ := if q < 0 then -(⌊-q⌋) else ⌊q⌋

/-- Python's builtin `range(start, stop, step)` for a positive `step`:
the arithmetic progression `start, start+step, …` of all terms `< stop`.
Its length is `(stop - start + step - 1) / step` (truncated division,
and `0` when `stop ≤ start`), which is exactly CPython's length
formula. -/
def pythonRange (start stop step : ℕ) : List ℕ :=
  List.range' start ((stop - start + step - 1) / step) step

/-- Line 173: `pressures = [14.7] + [i for i in range(200, int(P + 1000) + 1, 200)]`. -/
def pressures (P : ℚ) : List ℚ :=
  14.7 :: (pythonRange 200 ((pyInt (P + 1000)).toNat + 1) 200).map (fun n : ℕ => (n : ℚ))

/-- Lines 176-188: the sweep table has one row `(p, Z(p))` per sample
pressure; the Z column is abstracted as an arbitrary per-pressure value
`zOf` because only the pressure column matters to the row lookup. -/
def sweepRows (P : ℚ) (zOf : ℚ → ℚ) : List (ℚ × ℚ) :=
  (pressures P).map (fun p => (p, zOf p))

/-- Line 188: `highlight_point = df[df['Pressure (psi)'] == P]` — the
rows of the sweep table whose pressure column is exactly `P`. -/
def highlight_point (P : ℚ) (rows : List (ℚ × ℚ)) : List (ℚ × ℚ) :=
  rows.filter (fun r => decide (r.1 = P))

/-- Line 120: `Tpc = 169.2 + 349.5 * SG - 74.0 * SG**2` (Sutton). -/
def Tpc (SG : ℚ) : ℚ := 169.2 + 349.5 * SG - 74.0 * SG ^ 2

/-- Line 121: `Ppc = 756.8 - 131.0 * SG - 3.6 * SG**2` (Sutton). -/
def Ppc (SG : ℚ) : ℚ := 756.8 - 131.0 * SG - 3.6 * SG ^ 2

/-- Line 124: the Wichert-Aziz correction term
`e = 120 * ((y_N2 + y_CO2)**0.9 - (y_N2 + y_CO2)**1.6) + 15 * (y_H2S**0.5 - y_H2S**4)`.
Fractional powers are real powers, `**4` is an integer power. -/
noncomputable def e (yH2S yCO2 yN2 : ℝ) : ℝ :=
  120 * ((yN2 + yCO2) ^ (0.9 : ℝ) - (yN2 + yCO2) ^ (1.6 : ℝ)) +
    15 * (yH2S ^ (0.5 : ℝ) - yH2S ^ (4 : ℕ))

/-- Line 125: `Tpc_corr = Tpc - e`, parameterised over the incoming
pseudo-critical temperature and the mole fractions. -/
noncomputable def Tpc_corr (Tpc0 yH2S yCO2 yN2 : ℝ) : ℝ :=
  Tpc0 - e yH2S yCO2 yN2

/-- Line 126: `Ppc_corr = Ppc * Tpc_corr / (Tpc + y_H2S * (1 - y_H2S) * (304.2 - Tpc_corr))`. -/
noncomputable def Ppc_corr (Tpc0 Ppc0 yH2S yCO2 yN2 : ℝ) : ℝ :=
  Ppc0 * Tpc_corr Tpc0 yH2S yCO2 yN2 /
    (Tpc0 + yH2S * (1 - yH2S) * (304.2 - Tpc_corr Tpc0 yH2S yCO2 yN2))

/-- Line 163: `T_rankine = T + 459.67`. -/
def T_rankine (T : ℚ) : ℚ := T + 459.67

/-- Line 166: `Pr = P / Ppc_corr`, parameterised over the corrected
pseudo-critical pressure.  Note the Lean convention `x / 0 = 0`;
Python instead raises `ZeroDivisionError` there. -/
def Pr (P PpcCorr : ℚ) : ℚ := P / PpcCorr

/-- Line 167: `Tr = T_rankine / Tpc_corr`, same conventions as `Pr`. -/
def Tr (T TpcCorr : ℚ) : ℚ := T_rankine T / TpcCorr

/-- Lines 129-133: the Hall-Yarborough residual exactly as written in
`fy(y, alpha, Ppr, t)`; `y ** (2.18 + 2.82 * t)` is a real power. -/
noncomputable def fy (y alpha Ppr t : ℝ) : ℝ :=
  -alpha * Ppr +
    (y + y ^ 2 + y ^ 3 - y ^ 4) / (1 - y) ^ 3 -
    (14.76 * t - 9.76 * t ^ 2 + 4.58 * t ^ 3) * y ^ 2 +
    (90.7 * t - 242.2 * t ^ 2 + 42.4 * t ^ 3) * y ^ ((2.18 : ℝ) + 2.82 * t)

/-- Lines 135-140: `Zfac(Tpr, Ppr)` with the external root finder
abstracted as the parameter `fsolve` (the code calls
`fsolve(fy, 0.001, args=(alpha, Ppr, t))[0]`).  No convergence or
domain check is performed on the returned root. -/
noncomputable def Zfac (fsolve : (ℝ → ℝ) → ℝ → ℝ) (Tpr Ppr : ℝ) : ℝ :=
  let t := 1 / Tpr
  let alpha := 0.06125 * t * Real.exp (-1.2 * (1 - t) ^ 2)
  let y := fsolve (fun z => fy z alpha Ppr t) 0.001
  alpha * Ppr / y

/-- The root the solver call of line 139 hands to line 140, as a
standalone quantity. -/
noncomputable def solverRoot (fsolve : (ℝ → ℝ) → ℝ → ℝ) (Tpr Ppr : ℝ) : ℝ :=
  fsolve (fun z => fy z (0.06125 * (1 / Tpr) * Real.exp (-1.2 * (1 - 1 / Tpr) ^ 2)) Ppr (1 / Tpr)) 0.001

/-- A guarded variant of `Zfac` for comparison: it returns `none`
instead of dividing when the root handed back by the solver is zero.
The code has no such guard. -/
noncomputable def ZfacGuarded (fsolve : (ℝ → ℝ) → ℝ → ℝ) (Tpr Ppr : ℝ) : Option ℝ :=
  let t := 1 / Tpr
  let alpha := 0.06125 * t * Real.exp (-1.2 * (1 - t) ^ 2)
  let y := fsolve (fun z => fy z alpha Ppr t) 0.001
  if y = 0 then none else some (alpha * Ppr / y)

/-- A root finder that ignores its arguments and returns the constant
`c`; used to exercise `Zfac` at chosen root values. -/
def constSolve (c : ℝ) : (ℝ → ℝ) → ℝ → ℝ := fun _ _ => c

/-- A constant Z column for exercising the sweep-table lookup. -/
def zConst : ℚ → ℚ := fun _ => 0

end App

namespace Spec

/-- Sutton correlation for the pseudo-critical temperature, written
from the specification text (§4.1). -/
def Tpc (SG : ℚ) : ℚ := 169.2 + 349.5 * SG - 74.0 * SG ^ 2

/-- Sutton correlation for the pseudo-critical pressure, written from
the specification text (§4.1). -/
def Ppc (SG : ℚ) : ℚ := 756.8 - 131.0 * SG - 3.6 * SG ^ 2

/-- Wichert-Aziz correction term, written from the specification text
(§4.2). -/
noncomputable def e (yH2S yCO2 yN2 : ℝ) : ℝ :=
  120 * ((yN2 + yCO2) ^ (0.9 : ℝ) - (yN2 + yCO2) ^ (1.6 : ℝ)) +
    15 * (yH2S ^ (0.5 : ℝ) - yH2S ^ (4 : ℕ))

/-- Reciprocal reduced temperature `t = 1/Tpr`, from the specification
text (§4.4). -/
noncomputable def t (Tpr : ℝ) : ℝ := 1 / Tpr

/-- The scalar `alpha = 0.06125·t·exp(−1.2·(1−t)²)`, from the
specification text (§4.4). -/
noncomputable def alpha (Tpr : ℝ) : ℝ :=
  0.06125 * t Tpr * Real.exp (-1.2 * (1 - t Tpr) ^ 2)

/-- The Hall-Yarborough residual in the unknown `y`, written from the
specification text (§4.4). -/
noncomputable def residual (Tpr Ppr y : ℝ) : ℝ :=
  -alpha Tpr * Ppr +
    (y + y ^ 2 + y ^ 3 - y ^ 4) / (1 - y) ^ 3 -
    (14.76 * t Tpr - 9.76 * t Tpr ^ 2 + 4.58 * t Tpr ^ 3) * y ^ 2 +
    (90.7 * t Tpr - 242.2 * t Tpr ^ 2 + 42.4 * t Tpr ^ 3) * y ^ ((2.18 : ℝ) + 2.82 * t Tpr)

end Spec

set_option maxRecDepth 4000

/-! ### Helper lemmas -/

theorem pyInt_toNat_big (P : ℚ) (hP : 14.7 ≤ P) : 1014 ≤ (App.pyInt (P + 1000)).toNat := by
  have h0 : (0:ℚ) ≤ P + 1000 := by linarith
  have hfl : (1014:ℤ) ≤ ⌊P + 1000⌋ := Int.le_floor.mpr (by push_cast; linarith)
  rw [App.pyInt, if_neg (not_lt.mpr h0)]
  omega

theorem pressures_eq (P : ℚ) (hP : 14.7 ≤ P) :
    App.pressures P =
      14.7 :: (List.range' 200 ((App.pyInt (P + 1000)).toNat / 200) 200).map (fun n : ℕ => (n : ℚ)) := by
  have hge := pyInt_toNat_big P hP
  rw [App.pressures, App.pythonRange]
  have hlen : ((App.pyInt (P + 1000)).toNat + 1 - 200 + 200 - 1) / 200
      = (App.pyInt (P + 1000)).toNat / 200 := by omega
  rw [hlen]

theorem pressures_sorted (P : ℚ) (hP : 14.7 ≤ P) : (App.pressures P).Sorted (· < ·) := by
  rw [pressures_eq P hP]
  refine List.sorted_cons.mpr ⟨?_, ?_⟩
  · intro b hb
    obtain ⟨n, hn, rfl⟩ := List.mem_map.mp hb
    obtain ⟨i, hi, rfl⟩ := List.mem_range'.mp hn
    have h2 : ((200:ℕ) : ℚ) ≤ ((200 + 200 * i : ℕ) : ℚ) := Nat.cast_le.mpr (by omega)
    have h3 : (14.7:ℚ) < ((200:ℕ) : ℚ) := by norm_num
    exact lt_of_lt_of_le h3 h2
  · exact List.Pairwise.map _ (fun a b hab => Nat.cast_lt.mpr hab)
      (List.pairwise_lt_range' 200 _ 200 (by norm_num))

theorem mem_pressures (P x : ℚ) (hP : 14.7 ≤ P) :
    x ∈ App.pressures P ↔
      x = 14.7 ∨ ∃ k : ℕ, 1 ≤ k ∧ (200 * (k:ℤ)) ≤ App.pyInt (P + 1000) ∧ x = ((200 * k : ℕ) : ℚ) := by
  have h0 : (0:ℚ) ≤ P + 1000 := by linarith
  have hpy : 0 ≤ App.pyInt (P + 1000) := by
    rw [App.pyInt, if_neg (not_lt.mpr h0)]
    exact Int.floor_nonneg.mpr h0
  rw [pressures_eq P hP]
  constructor
  · intro hx
    rcases List.mem_cons.mp hx with h | h
    · exact Or.inl h
    · obtain ⟨n, hn, rfl⟩ := List.mem_map.mp h
      obtain ⟨i, hi, rfl⟩ := List.mem_range'.mp hn
      exact Or.inr ⟨i + 1, by omega, by omega,
        congrArg (fun m : ℕ => (m : ℚ)) (by omega : 200 + 200 * i = 200 * (i + 1))⟩
  · rintro (h | ⟨k, hk1, hk2, rfl⟩)
    · exact h ▸ List.mem_cons_self _ _
    · exact List.mem_cons_of_mem _ (List.mem_map.mpr
        ⟨200 * k, List.mem_range'.mpr ⟨k - 1, by omega, by omega⟩, rfl⟩)

theorem pressures_1500 : App.pressures 1500 =
    [14.7, 200, 400, 600, 800, 1000, 1200, 1400, 1600, 1800, 2000, 2200, 2400] := by
  norm_num [App.pressures, App.pythonRange, App.pyInt, List.range']

theorem not_mem_pressures_1500 : (1500 : ℚ) ∉ App.pressures 1500 := by
  rw [pressures_1500]; norm_num

theorem e_zero_contaminants : App.e 0 0 0 = 0 := by
  norm_num [App.e, Real.zero_rpow]

theorem highlight_point_eq_nil (P : ℚ) (rows : List (ℚ × ℚ)) (h : P ∉ rows.map Prod.fst) :
    App.highlight_point P rows = [] := by
  rw [App.highlight_point, List.filter_eq_nil_iff]
  intro r hr
  simp only [decide_eq_true_eq]
  intro heq
  exact h (List.mem_map.mpr ⟨r, hr, heq⟩)

/-! ### Claim theorems -/

/-- C1 (corrected): for every valid input pressure `P ≥ 14.7` the sweep list is
strictly increasing and consists of `14.7` followed by exactly the multiples of
200 from 200 up to and including the last multiple of 200 that is `≤ int(P + 1000)`
(not the first one `≥ P + 1000`); in particular for `P = 1500` the sequence ends
at 2400. -/
theorem pressure_sweep_characterization (P x : ℚ) (hP : 14.7 ≤ P) :
    (App.pressures P).Sorted (· < ·) ∧
    (x ∈ App.pressures P ↔
      x = 14.7 ∨ ∃ k : ℕ, 1 ≤ k ∧ (200 * (k:ℤ)) ≤ App.pyInt (P + 1000) ∧ x = ((200 * k : ℕ) : ℚ)) ∧
    App.pressures 1500 =
      [14.7, 200, 400, 600, 800, 1000, 1200, 1400, 1600, 1800, 2000, 2200, 2400] :=
  ⟨pressures_sorted P hP, mem_pressures P x hP, pressures_1500⟩

/-- C1 witness: the characterization instantiated at `P = 1500`, `x = 2400`. -/
theorem pressure_sweep_characterization_witness :
    (14.7 : ℚ) ≤ 1500 ∧
    ((App.pressures 1500).Sorted (· < ·) ∧
     ((2400 : ℚ) ∈ App.pressures 1500 ↔
       (2400 : ℚ) = 14.7 ∨ ∃ k : ℕ, 1 ≤ k ∧ (200 * (k:ℤ)) ≤ App.pyInt (1500 + 1000) ∧
         (2400 : ℚ) = ((200 * k : ℕ) : ℚ)) ∧
     App.pressures 1500 =
       [14.7, 200, 400, 600, 800, 1000, 1200, 1400, 1600, 1800, 2000, 2200, 2400]) :=
  ⟨by norm_num, pressure_sweep_characterization 1500 2400 (by norm_num)⟩

/-- C1 counterexample: for `P = 1500` the sweep list is not the claimed
`[14.7, 200, …, 2600]`; the code stops at 2400 because
`range(200, int(1500 + 1000) + 1, 200)` excludes 2600. -/
theorem pressure_sweep_claimed_list_false :
    App.pressures 1500 ≠
      [14.7, 200, 400, 600, 800, 1000, 1200, 1400, 1600, 1800, 2000, 2200, 2400, 2600] := by
  rw [pressures_1500]; simp

/-- C2: the highlighted-row lookup is an exact-equality filter: whenever no row's
pressure equals `P` it returns the empty selection (it neither picks a nearest
point nor fails), and for `P = 1500` the lookup over the sweep table built for
`P = 1500` returns the empty selection whatever the Z column holds. -/
theorem highlight_point_no_match (P : ℚ) (rows : List (ℚ × ℚ)) (zOf : ℚ → ℚ)
    (h : P ∉ rows.map Prod.fst) :
    App.highlight_point P rows = [] ∧
    App.highlight_point 1500 (App.sweepRows 1500 zOf) = [] := by
  refine ⟨highlight_point_eq_nil P rows h, highlight_point_eq_nil 1500 _ ?_⟩
  have hmaps : (App.sweepRows 1500 zOf).map Prod.fst = App.pressures 1500 := by
    have hcomp : (Prod.fst ∘ fun p : ℚ => (p, zOf p)) = id := rfl
    rw [App.sweepRows, List.map_map, hcomp, List.map_id]
  rw [hmaps]
  exact not_mem_pressures_1500

/-- C2 witness: the lookup instantiated at a table without `P = 1500` and at the
concrete sweep for `P = 1500` with a constant Z column. -/
theorem highlight_point_no_match_witness :
    (1500 : ℚ) ∉ ([((14.7 : ℚ), (1 : ℚ))].map Prod.fst) ∧
    (App.highlight_point 1500 [((14.7 : ℚ), (1 : ℚ))] = [] ∧
     App.highlight_point 1500 (App.sweepRows 1500 App.zConst) = []) :=
  ⟨by norm_num, highlight_point_no_match 1500 [((14.7 : ℚ), (1 : ℚ))] App.zConst (by norm_num)⟩

/-- C3 counterexample: when the root search hands back the physically invalid
root `y = 2` (outside `(0,1)`), `Zfac` at `Tpr = 1`, `Ppr = 1` does not fail with
any named error — its codomain has no error branch at all — but returns the
number `alpha·Ppr/2 = 0.030625`. -/
theorem Zfac_no_domain_error_at_invalid_root :
    (1 : ℝ) ≤ 2 ∧ App.Zfac (App.constSolve 2) 1 1 = 0.030625 := by
  constructor
  · norm_num
  · norm_num [App.Zfac, App.constSolve, App.fy, Real.exp_zero]

/-- C3 (corrected): the solver performs no convergence check and no domain check
on the root: for any root value `c` handed back by the root search — including
every `c ≤ 0` or `c ≥ 1` — `Zfac` simply returns `alpha·Ppr/c`. -/
theorem Zfac_unchecked_root (c Tpr Ppr : ℝ) (_hc : c ≤ 0 ∨ 1 ≤ c) :
    App.Zfac (App.constSolve c) Tpr Ppr = Spec.alpha Tpr * Ppr / c := rfl

/-- C3 witness: the unchecked return at the invalid root `c = 2`. -/
theorem Zfac_unchecked_root_witness :
    ((2 : ℝ) ≤ 0 ∨ (1 : ℝ) ≤ 2) ∧
    App.Zfac (App.constSolve 2) 1 1 = Spec.alpha 1 * 1 / 2 :=
  ⟨Or.inr (by norm_num), Zfac_unchecked_root 2 1 1 (Or.inr (by norm_num))⟩

/-- C4 (corrected): the reduced-property computation has no domain guard: for a
negative corrected pseudo-critical pressure/temperature it silently returns
negative reduced properties instead of failing (and a zero denominator would be
a `ZeroDivisionError` crash in Python, not a reported domain error). -/
theorem reduced_props_unguarded (P T TpcCorr PpcCorr : ℚ)
    (hP : 0 < P) (hPpc : PpcCorr < 0) (hT : -459.67 < T) (hTpc : TpcCorr < 0) :
    App.Pr P PpcCorr < 0 ∧ App.Tr T TpcCorr < 0 := by
  constructor
  · rw [App.Pr]
    exact div_neg_of_pos_of_neg hP hPpc
  · rw [App.Tr]
    exact div_neg_of_pos_of_neg (by rw [App.T_rankine]; linarith) hTpc

/-- C4 witness: silent negative reduced properties at `P=100, T=60, TpcCorr=-1,
PpcCorr=-2`. -/
theorem reduced_props_unguarded_witness :
    (0 : ℚ) < 100 ∧ (-2 : ℚ) < 0 ∧ (-459.67 : ℚ) < 60 ∧ (-1 : ℚ) < 0 ∧
    (App.Pr 100 (-2) < 0 ∧ App.Tr 60 (-1) < 0) :=
  ⟨by norm_num, by norm_num, by norm_num, by norm_num,
    reduced_props_unguarded 100 60 (-1) (-2) (by norm_num) (by norm_num) (by norm_num) (by norm_num)⟩

/-- C4 counterexample: with a non-positive corrected property the computation
does not fail with a domain error; it returns a concrete (negative) number. -/
theorem Pr_silent_negative : App.Pr 100 (-2) = -50 ∧ App.Tr 60 (-1) = -519.67 := by
  constructor
  · norm_num [App.Pr]
  · norm_num [App.Tr, App.T_rankine]

/-- C5 counterexample: at `SG = 0.75` the correlation formulas give values 3.7
and 1.925 above the claimed `386.0` and `654.6`, so the claimed values are not
the exact outputs of the formulas. -/
theorem pseudo_critical_at_075_claim_false :
    App.Tpc 0.75 - 386.0 = 3.7 ∧ App.Ppc 0.75 - 654.6 = 1.925 ∧
    App.Tpc 0.75 ≠ 386.0 ∧ App.Ppc 0.75 ≠ 654.6 := by
  norm_num [App.Tpc, App.Ppc]

/-- C5 (corrected): for `SG = 0.75` the pseudo-critical correlation returns
exactly `Tpc = 389.7` and `Ppc = 656.525`. -/
theorem pseudo_critical_at_075 :
    App.Tpc 0.75 = 389.7 ∧ App.Ppc 0.75 = 656.525 := by
  norm_num [App.Tpc, App.Ppc]

/-- C6: for every `Tpr > 0`, `Ppr ≥ 0` and root finder, the residual handed to
the root finder (with `alpha` and `t` computed as the spec prescribes and
initial guess `0.001`) is exactly the spec's Hall-Yarborough residual, and the
returned value is `alpha·Ppr/y*` where `y*` is the root the finder produced. -/
theorem Zfac_matches_spec (fsolve : (ℝ → ℝ) → ℝ → ℝ) (Tpr Ppr y : ℝ)
    (_hT : 0 < Tpr) (_hP : 0 ≤ Ppr) :
    App.fy y (Spec.alpha Tpr) Ppr (Spec.t Tpr) = Spec.residual Tpr Ppr y ∧
    App.Zfac fsolve Tpr Ppr =
      Spec.alpha Tpr * Ppr / fsolve (fun z => Spec.residual Tpr Ppr z) 0.001 :=
  ⟨rfl, rfl⟩

/-- C6 witness: instantiated at `Tpr = 1`, `Ppr = 0`, `y = 0` with a constant
root finder. -/
theorem Zfac_matches_spec_witness :
    (0 : ℝ) < 1 ∧ (0 : ℝ) ≤ 0 ∧
    (App.fy 0 (Spec.alpha 1) 0 (Spec.t 1) = Spec.residual 1 0 0 ∧
     App.Zfac (App.constSolve 1) 1 0 =
       Spec.alpha 1 * 0 / App.constSolve 1 (fun z => Spec.residual 1 0 z) 0.001) :=
  ⟨by norm_num, le_refl 0, Zfac_matches_spec (App.constSolve 1) 1 0 0 (by norm_num) (le_refl 0)⟩

/-- C7: on the valid domain the non-hydrocarbon correction computes exactly the
spec's `e`, `TpcCorr = Tpc − e` and
`PpcCorr = Ppc·TpcCorr/(Tpc + yH2S·(1− yH2S)·(304.2 − TpcCorr))`. -/
theorem wichert_aziz_matches_spec (Tpc0 Ppc0 yH2S yCO2 yN2 : ℝ)
    (_h1 : 0 ≤ yH2S) (_h2 : yH2S ≤ 1) (_h3 : 0 ≤ yCO2) (_h4 : yCO2 ≤ 1)
    (_h5 : 0 ≤ yN2) (_h6 : yN2 ≤ 1) (_h7 : yH2S + yCO2 + yN2 ≤ 1) :
    App.e yH2S yCO2 yN2 = Spec.e yH2S yCO2 yN2 ∧
    App.Tpc_corr Tpc0 yH2S yCO2 yN2 = Tpc0 - Spec.e yH2S yCO2 yN2 ∧
    App.Ppc_corr Tpc0 Ppc0 yH2S yCO2 yN2 =
      Ppc0 * (Tpc0 - Spec.e yH2S yCO2 yN2) /
        (Tpc0 + yH2S * (1 - yH2S) * (304.2 - (Tpc0 - Spec.e yH2S yCO2 yN2))) :=
  ⟨rfl, rfl, rfl⟩

/-- C7 witness: instantiated at `Tpc = 380`, `Ppc = 650` and all three mole
fractions `0.1`. -/
theorem wichert_aziz_matches_spec_witness :
    (0 : ℝ) ≤ 0.1 ∧ (0.1 : ℝ) ≤ 1 ∧ (0.1 : ℝ) + 0.1 + 0.1 ≤ 1 ∧
    (App.e 0.1 0.1 0.1 = Spec.e 0.1 0.1 0.1 ∧
     App.Tpc_corr 380 0.1 0.1 0.1 = 380 - Spec.e 0.1 0.1 0.1 ∧
     App.Ppc_corr 380 650 0.1 0.1 0.1 =
       650 * (380 - Spec.e 0.1 0.1 0.1) /
         (380 + 0.1 * (1 - 0.1) * (304.2 - (380 - Spec.e 0.1 0.1 0.1)))) :=
  ⟨by norm_num, by norm_num, by norm_num,
    wichert_aziz_matches_spec 380 650 0.1 0.1 0.1 (by norm_num) (by norm_num) (by norm_num)
      (by norm_num) (by norm_num) (by norm_num) (by norm_num)⟩

/-- C8 (corrected): for every `Tpc ≠ 0` and every `Ppc`, the correction at zero
contaminant fractions is the identity: `e = 0`, `TpcCorr = Tpc` and
`PpcCorr = Ppc` exactly.  (At `Tpc = 0` the quotient defining `PpcCorr` has a
zero denominator and the identity fails, see the counterexample.) -/
theorem correction_identity_zero_contaminants (Tpc0 Ppc0 : ℝ) (h : Tpc0 ≠ 0) :
    App.e 0 0 0 = 0 ∧ App.Tpc_corr Tpc0 0 0 0 = Tpc0 ∧ App.Ppc_corr Tpc0 Ppc0 0 0 0 = Ppc0 := by
  refine ⟨e_zero_contaminants, ?_, ?_⟩
  · rw [App.Tpc_corr, e_zero_contaminants, sub_zero]
  · rw [App.Ppc_corr, App.Tpc_corr, e_zero_contaminants, sub_zero]
    rw [zero_mul, zero_mul, add_zero, mul_div_assoc, div_self h, mul_one]

/-- C8 witness: the identity at `Tpc = 2`, `Ppc = 3`. -/
theorem correction_identity_zero_contaminants_witness :
    (2 : ℝ) ≠ 0 ∧
    (App.e 0 0 0 = 0 ∧ App.Tpc_corr 2 0 0 0 = 2 ∧ App.Ppc_corr 2 3 0 0 0 = 3) :=
  ⟨by norm_num, correction_identity_zero_contaminants 2 3 (by norm_num)⟩

/-- C8 counterexample: at `Tpc = 0`, `Ppc = 1` with zero contaminants the
correction does not return `Ppc`: the denominator is zero, so the embedded
quotient is `0` (and the Python source would raise `ZeroDivisionError`), which
refutes the claim's universal quantification over all `Tpc`. -/
theorem correction_not_identity_at_zero_Tpc : App.Ppc_corr 0 1 0 0 0 ≠ 1 := by
  rw [App.Ppc_corr, App.Tpc_corr, e_zero_contaminants]
  norm_num

/-- C9: on the documented domain `0.55 ≤ SG ≤ 1` the code's pseudo-critical
correlation agrees exactly with the spec's Sutton formulas, and both outputs
are strictly positive (total, no failure mode on the domain). -/
theorem sutton_matches_spec (SG : ℚ) (h1 : 0.55 ≤ SG) (h2 : SG ≤ 1) :
    App.Tpc SG = Spec.Tpc SG ∧ App.Ppc SG = Spec.Ppc SG ∧
    0 < App.Tpc SG ∧ 0 < App.Ppc SG := by
  refine ⟨rfl, rfl, ?_, ?_⟩
  · rw [App.Tpc]
    nlinarith [mul_nonneg (by linarith : (0:ℚ) ≤ SG) (by linarith : (0:ℚ) ≤ 1 - SG)]
  · rw [App.Ppc]
    nlinarith [mul_nonneg (by linarith : (0:ℚ) ≤ 1 - SG) (by linarith : (0:ℚ) ≤ 1 + SG)]

/-- C9 witness: the agreement and positivity at `SG = 0.75`. -/
theorem sutton_matches_spec_witness :
    (0.55 : ℚ) ≤ 0.75 ∧ (0.75 : ℚ) ≤ 1 ∧
    (App.Tpc 0.75 = Spec.Tpc 0.75 ∧ App.Ppc 0.75 = Spec.Ppc 0.75 ∧
     0 < App.Tpc 0.75 ∧ 0 < App.Ppc 0.75) :=
  ⟨by norm_num, by norm_num, sutton_matches_spec 0.75 (by norm_num) (by norm_num)⟩

/-- C10: the final division of `Zfac` is unguarded: for every root finder and
inputs, `Zfac` returns `alpha·Ppr/y` for whatever root `y` the search returned;
the guarded variant agrees with it exactly when that root is nonzero, and its
error branch fires only at root `0`, where the unguarded code's embedded value
degenerates to `0` (numpy produces `inf`/`nan` there rather than an error). -/
theorem Zfac_division_unguarded (fsolve : (ℝ → ℝ) → ℝ → ℝ) (Tpr Ppr : ℝ) :
    App.Zfac fsolve Tpr Ppr = Spec.alpha Tpr * Ppr / App.solverRoot fsolve Tpr Ppr ∧
    (App.solverRoot fsolve Tpr Ppr ≠ 0 →
      App.ZfacGuarded fsolve Tpr Ppr = some (App.Zfac fsolve Tpr Ppr)) ∧
    (App.solverRoot fsolve Tpr Ppr = 0 →
      App.ZfacGuarded fsolve Tpr Ppr = none ∧ App.Zfac fsolve Tpr Ppr = 0) := by
  refine ⟨rfl, ?_, ?_⟩
  · intro h
    show (if App.solverRoot fsolve Tpr Ppr = 0 then (none : Option ℝ)
        else some (App.Zfac fsolve Tpr Ppr)) = some (App.Zfac fsolve Tpr Ppr)
    rw [if_neg h]
  · intro h
    constructor
    · show (if App.solverRoot fsolve Tpr Ppr = 0 then (none : Option ℝ)
          else some (App.Zfac fsolve Tpr Ppr)) = none
      rw [if_pos h]
    · calc App.Zfac fsolve Tpr Ppr
          = Spec.alpha Tpr * Ppr / App.solverRoot fsolve Tpr Ppr := rfl
        _ = 0 := by rw [h, div_zero]

/-- C10 witness: the guarded and unguarded solver agree at a nonzero root. -/
theorem Zfac_division_unguarded_witness :
    App.solverRoot (App.constSolve 1) 1 1 ≠ 0 ∧
    App.ZfacGuarded (App.constSolve 1) 1 1 = some (App.Zfac (App.constSolve 1) 1 1) := by
  have h1 : App.solverRoot (App.constSolve 1) 1 1 ≠ 0 := one_ne_zero
  exact ⟨h1, (Zfac_division_unguarded (App.constSolve 1) 1 1).2.1 h1⟩
